import Mathlib

/-!
Verification development for the kro/symphony reconciliation core:
the schema-driven CEL expression extractor (`parser` package) and the
error-to-condition status state machine (`controller` package).

Go values travelling through `ParseResource` are `interface{}` trees made
of maps, slices, strings and scalars; we embed them as the inductive
`Value`.  `spec.Schema` (kube-openapi) is embedded as the inductive
`Schema`, keeping only the fields the source reads: `Type`, `Properties`,
`Items.Schema`, `AdditionalProperties` (`Allows` + `Schema`), `OneOf`.
Go maps are embedded as association lists; the source iterates maps in
unspecified order, here we iterate in list order (none of the proved
properties depend on sibling order).  Error returns are embedded as
`Except String`; `fmt.Errorf` payloads that interpolate the offending
value (`%v`/`%T`) are embedded keeping the path interpolation only.
-/

/-- A Go `interface{}` document node, as discriminated by the type switch
in `parseResource`: JSON object, array, string, float64, int/int32/int64,
bool, or any other dynamic type (e.g. nil). The source never reads the
numeric/boolean payloads, only their dynamic type, so they are omitted. -/
inductive Value where
  | obj (fields : List (String × Value))
  | arr (items : List Value)
  | str (s : String)
  | num
  | intv
  | boolv
  | other
deriving Repr

/-- Embedding of `spec.Schema` restricted to the fields the source reads.
`items` embeds the `Items *SchemaOrArray` pointer: `none` = `Items == nil`,
`some none` = `Items != nil && Items.Schema == nil`, `some (some s)` =
`Items.Schema == &s` (the source never reads `Items.Schemas`).
`addl` embeds `AdditionalProperties *SchemaOrBool`: `none` = nil pointer,
`some (allows, schema?)` = the pointed-to `Allows`/`Schema` pair. -/
inductive Schema where
  | mk (type : List String)
       (properties : List (String × Schema))
       (items : Option (Option Schema))
       (addl : Option (Bool × Option Schema))
       (oneOf : List Schema)
deriving Repr

def Schema.type : Schema → List String
  | .mk t _ _ _ _ => t

def Schema.properties : Schema → List (String × Schema)
  | .mk _ p _ _ _ => p

def Schema.items : Schema → Option (Option Schema)
  | .mk _ _ i _ _ => i

def Schema.addl : Schema → Option (Bool × Option Schema)
  | .mk _ _ _ a _ => a

def Schema.oneOf : Schema → List Schema
  | .mk _ _ _ _ o => o

/-- Rebuild a schema with the `Type` field replaced, embedding the Go
assignment `schema.Type = ...`. -/
def Schema.withType : Schema → List String → Schema
  | .mk _ p i a o, t => .mk t p i a o

/-- The zero value `spec.Schema{}` returned by `getFieldSchema` when
`AdditionalProperties.Allows` holds without a schema. -/
def emptySchema : Schema := .mk [] [] none none []

/-- Embedding of the parser's `ExpressionField` struct. -/
structure ExpressionField where
  path : String
  expressions : List String
  expectedType : String
  expectedSchema : Option Schema
  oneShotCEL : Bool
deriving Repr

/-- Scanner state for `extractExpressions`: `none` while outside an
expression; `some (depth, accRev)` while inside one, where `depth` counts
braces opened beyond the delimiter and `accRev` holds the body so far,
reversed. -/
def extractLoop : List Char → Option (Nat × List Char) → List String → Except String (List String)
  | [], none, acc => .ok acc.reverse
  | [], some _, _ => .error "malformed expression: unmatched opening delimiter"
  | '$' :: '\x7b' :: rest, none, acc => extractLoop rest (some (0, [])) acc
  | _ :: rest, none, acc => extractLoop rest none acc
  | '\x7b' :: rest, some (d, b), acc => extractLoop rest (some (d + 1, '\x7b' :: b)) acc
  | '\x7d' :: rest, some (0, b), acc => extractLoop rest none (String.mk b.reverse :: acc)
  | '\x7d' :: rest, some (d + 1, b), acc => extractLoop rest (some (d, '\x7d' :: b)) acc
  | c :: rest, some (d, b), acc => extractLoop rest (some (d, c :: b)) acc

/-- Modelled from the spec: `extractExpressions` is called by
`parseResource` but its definition is not under `src/`.  Per §4.2 and §6 it
returns the ordered substrings delimited by an opening `$\x7b` and the
matching `\x7d`, tracking nesting depth so a body may contain braces, and
reports a `MalformedExpression` error for an opening delimiter with no
matching close. -/
def extractExpressions (s : String) : Except String (List String) :=
  extractLoop s.toList none []

/-- Depth-counting scan of the characters following a leading `$\x7b`:
decides whether the matching closing brace is the final character of the
string (one-shot), errors when there is no matching close. -/
def oneShotBody : List Char → Nat → Except String Bool
  | [], _ => .error "malformed expression: unmatched opening delimiter"
  | '\x7b' :: rest, d => oneShotBody rest (d + 1)
  | '\x7d' :: rest, 0 => .ok rest.isEmpty
  | '\x7d' :: rest, d + 1 => oneShotBody rest d
  | _ :: rest, d => oneShotBody rest d

/-- The character list of a string with leading and trailing whitespace
removed (Go `strings.TrimSpace`). -/
def trimChars (s : String) : List Char :=
  ((s.toList.dropWhile Char.isWhitespace).reverse.dropWhile Char.isWhitespace).reverse

/-- Modelled from the spec: `isOneShotExpression` is called by
`parseResource` but its definition is not under `src/`.  Per §4.2 it
decides whether the entire trimmed string is exactly one delimited span
with nothing around it, tracking nesting depth, and reports an error for
an unmatched opening delimiter. -/
def isOneShotExpression (s : String) : Except String Bool :=
  match trimChars s with
  | '$' :: '\x7b' :: rest => oneShotBody rest 0
  | _ => .ok false

/-- The cutset of Go's `strings.Trim(field, "$\x7b\x7d")` at the one-shot
emission site. -/
def trimCutset : List Char := ['$', '\x7b', '\x7d']

/-- Embedding of Go `strings.Trim`: remove every leading and every
trailing character that belongs to the cutset. -/
def goTrim (s : String) (cutset : List Char) : String :=
  String.mk (((s.toList.dropWhile (cutset.contains ·)).reverse.dropWhile
      (cutset.contains ·)).reverse)

/-- Embedding of `getFieldSchema` (part_000 lines 185–203): named
property lookup, then `AdditionalProperties.Schema`, then the empty
schema when `AdditionalProperties.Allows`, else an error.  (A nil Go map
looks up like an empty one, so `Properties == nil` needs no extra case.) -/
def getFieldSchema (schema : Schema) (field : String) : Except String Schema :=
  match List.lookup field schema.properties with
  | some fieldSchema => .ok fieldSchema
  | none =>
    match schema.addl with
    | some (_, some s) => .ok s
    | some (true, none) => .ok emptySchema
    | _ => .error ("schema not found for field " ++ field)

/-- Embedding of part_000 lines 65–72: when `Type` is not a singleton,
overwrite it in place with the first `oneOf` alternative's first type, or
fail.  `schema.OneOf[0].Type[0]` is an unchecked index, so an alternative
with an empty `Type` makes the Go code panic; the panic is embedded as an
error (it aborts the walk either way, and no mutation has happened yet). -/
def normalizeType (s : Schema) : Except String Schema :=
  if s.type.length = 1 then .ok s
  else
    match s.oneOf with
    | [] => .error "found schema type that is not a single type"
    | alt :: _ =>
      match alt.type with
      | t :: _ => .ok (s.withType [t])
      | [] => .error "panic: index out of range"

/-- Does `schema.AdditionalProperties != nil && schema.AdditionalProperties.Allows` hold? -/
def addlAllows (s : Schema) : Bool :=
  match s.addl with
  | some (allows, _) => allows
  | none => false

/-- Embedding of part_000 lines 74–78: the resolved expected type, `"any"`
when the declared type is blank and an open additional-properties rule
exists. -/
def resolveExpectedType (s : Schema) : String :=
  let t := s.type.headD ""
  if t = "" ∧ addlAllows s = true then "any" else t

/-- The `Items.Schema` pointer when both `Items` and `Items.Schema` are
non-nil. -/
def itemsSchemaOf (s : Schema) : Option Schema :=
  match s.items with
  | some (some i) => some i
  | _ => none

/-- Embedding of the array-item schema selection (part_000 lines 102–118),
mirroring the source's `if` / `else if` / `else` chain.  The second Go
branch guards on `schema.Items != nil && schema.Items.Schema != nil &&
len(schema.Items.Schema.Properties) > 0`; since its first two conjuncts
are exactly the first branch's guard, which has just failed, the
synthesized-schema fallback is unreachable. -/
def arrayItemSchema (schema : Schema) (path : String) : Except String Schema :=
  match itemsSchemaOf schema with
  | some i => .ok i
  | none =>
    if (itemsSchemaOf schema).isSome
        ∧ 0 < ((itemsSchemaOf schema).getD emptySchema).properties.length then
      .ok (Schema.mk ["object"] schema.properties none none [])
    else
      .error ("invalid array schema for path " ++ path ++
        ": neither Items.Schema nor Properties are defined")

/-- Embedding of the string-leaf case (part_000 lines 127–155). -/
def parseStringLeaf (s : String) (schema : Schema) (expectedType path : String) :
    Except String (List ExpressionField) :=
  match isOneShotExpression s with
  | .error e => .error e
  | .ok true =>
    .ok [ExpressionField.mk path [goTrim s trimCutset] expectedType (some schema) true]
  | .ok false =>
    if expectedType ≠ "string" ∧ expectedType ≠ "any" then
      .error ("expected string type or AdditionalProperties allowed for path " ++ path)
    else
      match extractExpressions s with
      | .error e => .error e
      | .ok exprs =>
        if 0 < exprs.length then
          .ok [ExpressionField.mk path exprs expectedType none false]
        else .ok []

/-- Embedding of the default scalar case (part_000 lines 156–179):
`"any"` always passes, number/integer/boolean check the dynamic type,
anything else is an unsupported type. -/
def checkScalar (v : Value) (expectedType path : String) :
    Except String (List ExpressionField) :=
  if expectedType = "any" then .ok []
  else if expectedType = "number" then
    match v with
    | .num => .ok []
    | _ => .error ("expected number type for path " ++ path)
  else if expectedType = "integer" then
    match v with
    | .intv => .ok []
    | _ => .error ("expected integer type for path " ++ path)
  else if expectedType = "boolean" then
    match v with
    | .boolv => .ok []
    | _ => .error ("expected boolean type for path " ++ path)
  else .error ("unexpected type for path " ++ path)

mutual

/-- Embedding of `parseResource` (part_000 lines 59–183). -/
def parseResource (resource : Value) (schema? : Option Schema) (path : String) :
    Except String (List ExpressionField) :=
  match schema? with
  | none => .error ("schema is nil for path " ++ path)
  | some schema0 =>
    match normalizeType schema0 with
    | .error e => .error e
    | .ok schema =>
      let expectedType := resolveExpectedType schema
      match resource with
      | .obj fields =>
        if expectedType ≠ "object" ∧ ¬ addlAllows schema then
          .error ("expected object type or AdditionalProperties allowed for path " ++ path)
        else parseObjFields fields schema path
      | .arr items =>
        if expectedType ≠ "array" then
          .error ("expected array type for path " ++ path)
        else
          match arrayItemSchema schema path with
          | .error e => .error e
          | .ok itemSchema => parseArrItems items itemSchema path 0
      | .str s => parseStringLeaf s schema expectedType path
      | v => checkScalar v expectedType path
termination_by 2 * sizeOf resource + 1

/-- Embedding of the object-field loop of `parseResource`
(part_000 lines 86–97), iterating the association list in order. -/
def parseObjFields (fields : List (String × Value)) (schema : Schema) (path : String) :
    Except String (List ExpressionField) :=
  match fields with
  | [] => .ok []
  | (fname, fval) :: rest =>
    match getFieldSchema schema fname with
    | .error e =>
      .error ("error getting field schema for path " ++ (path ++ "." ++ fname) ++ ": " ++ e)
    | .ok fieldSchema =>
      match parseResource fval (some fieldSchema) (path ++ "." ++ fname) with
      | .error e => .error e
      | .ok fieldExpressions =>
        match parseObjFields rest schema path with
        | .error e => .error e
        | .ok restExpressions => .ok (fieldExpressions ++ restExpressions)
termination_by 2 * sizeOf fields

/-- Embedding of the array-item loop of `parseResource`
(part_000 lines 119–126). -/
def parseArrItems (items : List Value) (itemSchema : Schema) (path : String) (i : Nat) :
    Except String (List ExpressionField) :=
  match items with
  | [] => .ok []
  | item :: rest =>
    match parseResource item (some itemSchema) (path ++ "[" ++ toString i ++ "]") with
    | .error e => .error e
    | .ok itemExpressions =>
      match parseArrItems rest itemSchema path (i + 1) with
      | .error e => .error e
      | .ok restExpressions => .ok (itemExpressions ++ restExpressions)
termination_by 2 * sizeOf items

end

/-- Embedding of the exported `ParseResource` entry point (part_000
lines 52–54). -/
def ParseResource (resource : List (String × Value)) (resourceSchema : Option Schema) :
    Except String (List ExpressionField) :=
  parseResource (.obj resource) resourceSchema ""

/-- Rebuild a schema with the `Properties` field replaced. -/
def Schema.withProperties : Schema → List (String × Schema) → Schema
  | .mk t _ i a o, p => .mk t p i a o

/-- Rebuild a schema with the `AdditionalProperties` field replaced. -/
def Schema.withAddl : Schema → Option (Bool × Option Schema) → Schema
  | .mk t p i _ o, a => .mk t p i a o

/-- Rebuild a schema with the `Items.Schema` pointee replaced (used only
for nodes whose `Items.Schema` is non-nil). -/
def Schema.withItemsSchema : Schema → Schema → Schema
  | .mk t p _ a o, i => .mk t p (some (some i)) a o

/-- Replace the value stored under a key, embedding an update of the cell
that a Go map lookup reads (the first matching entry). -/
def setPropEntry : List (String × Schema) → String → Schema → List (String × Schema)
  | [], _, _ => []
  | (k, v) :: rest, key, c =>
    if key == k then (k, c) :: rest else (k, v) :: setPropEntry rest key c

mutual

/-- Companion state-threading walk for the frame property of
`parseResource`.  `parseResource` above embeds the value/result
semantics; a pure function cannot also express the in-place
`schema.Type = ...` write of line 68, which executes at every recursion
level, so this companion re-runs the same walk threading the schema tree
as the caller's heap sees it.  Aliasing follows kube-openapi's
representation: the walked node is reached through a `*spec.Schema`
pointer, so the line-68 write to its `Type` is caller-visible; recursion
into `Items.Schema` and `AdditionalProperties.Schema` follows pointers
into the caller's tree, so writes there are visible too; a `Properties`
map lookup copies the entry value (`getFieldSchema` returns
`&fieldSchema` for a fresh copy), so the write to that child's own `Type`
is lost to the caller, while the copy still shares the child's
`Items`/`AdditionalProperties` pointers, so deeper writes remain visible;
the fresh `spec.Schema{}` child used for a bare
`AdditionalProperties.Allows` rule is newly allocated, so nothing done to
it is caller-visible.  The first component is the walk result, the second
the post-state of the walked node's subtree (`none` only for a nil
schema); on an error return the writes already performed persist. -/
def parseResourceSt (resource : Value) (schema? : Option Schema) (path : String) :
    Except String (List ExpressionField) × Option Schema :=
  match schema? with
  | none => (.error ("schema is nil for path " ++ path), none)
  | some schema0 =>
    match normalizeType schema0 with
    | .error e => (.error e, some schema0)
    | .ok schema =>
      let expectedType := resolveExpectedType schema
      match resource with
      | .obj fields =>
        if expectedType ≠ "object" ∧ ¬ addlAllows schema then
          (.error ("expected object type or AdditionalProperties allowed for path " ++ path),
            some schema)
        else
          let r := parseObjFieldsSt fields schema path
          (r.1, some r.2)
      | .arr items =>
        if expectedType ≠ "array" then
          (.error ("expected array type for path " ++ path), some schema)
        else
          match arrayItemSchema schema path with
          | .error e => (.error e, some schema)
          | .ok itemSchema =>
            let r := parseArrItemsSt items itemSchema path 0
            (r.1, some (schema.withItemsSchema r.2))
      | .str s => (parseStringLeaf s schema expectedType path, some schema)
      | v => (checkScalar v expectedType path, some schema)
termination_by 2 * sizeOf resource + 1

/-- State-threading version of the object-field loop.  The branch
structure reproduces `getFieldSchema`'s cases inline because the
post-state depends on which case supplied the child pointer: a
`Properties` hit yields a copied child (own `Type` write discarded,
deeper writes kept), an `AdditionalProperties.Schema` hit yields an
aliased child, the bare-`Allows` empty schema is detached.  Each field's
lookup reads the already-updated state, as the Go heap does. -/
def parseObjFieldsSt (fields : List (String × Value)) (schema : Schema) (path : String) :
    Except String (List ExpressionField) × Schema :=
  match fields with
  | [] => (.ok [], schema)
  | (fname, fval) :: rest =>
    match List.lookup fname schema.properties with
    | some child =>
      let r := parseResourceSt fval (some child) (path ++ "." ++ fname)
      let childKept := (r.2.getD child).withType child.type
      let schema1 := schema.withProperties (setPropEntry schema.properties fname childKept)
      match r.1 with
      | .error e => (.error e, schema1)
      | .ok fx =>
        let rr := parseObjFieldsSt rest schema1 path
        match rr.1 with
        | .error e => (.error e, rr.2)
        | .ok rx => (.ok (fx ++ rx), rr.2)
    | none =>
      match schema.addl with
      | some (b, some asch) =>
        let r := parseResourceSt fval (some asch) (path ++ "." ++ fname)
        let schema1 := schema.withAddl (some (b, some (r.2.getD asch)))
        match r.1 with
        | .error e => (.error e, schema1)
        | .ok fx =>
          let rr := parseObjFieldsSt rest schema1 path
          match rr.1 with
          | .error e => (.error e, rr.2)
          | .ok rx => (.ok (fx ++ rx), rr.2)
      | some (true, none) =>
        let r := parseResourceSt fval (some emptySchema) (path ++ "." ++ fname)
        match r.1 with
        | .error e => (.error e, schema)
        | .ok fx =>
          let rr := parseObjFieldsSt rest schema path
          match rr.1 with
          | .error e => (.error e, rr.2)
          | .ok rx => (.ok (fx ++ rx), rr.2)
      | _ =>
        (.error ("error getting field schema for path " ++ (path ++ "." ++ fname) ++ ": " ++
          ("schema not found for field " ++ fname)), schema)
termination_by 2 * sizeOf fields

/-- State-threading version of the array-item loop: every item is walked
against the same caller-owned `Items.Schema` node, so each iteration
starts from the state the previous one left. -/
def parseArrItemsSt (items : List Value) (itemSchema : Schema) (path : String) (i : Nat) :
    Except String (List ExpressionField) × Schema :=
  match items with
  | [] => (.ok [], itemSchema)
  | item :: rest =>
    let r := parseResourceSt item (some itemSchema) (path ++ "[" ++ toString i ++ "]")
    let is1 := r.2.getD itemSchema
    match r.1 with
    | .error e => (.error e, is1)
    | .ok fx =>
      let rr := parseArrItemsSt rest is1 path (i + 1)
      match rr.1 with
      | .error e => (.error e, rr.2)
      | .ok rx => (.ok (fx ++ rx), rr.2)
termination_by 2 * sizeOf items

end

mutual

/-- Does no node of the schema tree declare a `oneOf` union?  (The
line-68 write is guarded by a nonempty `OneOf`, so such trees are never
written to.) -/
def Schema.oneOfFree : Schema → Bool
  | .mk _ props items addl oneOf =>
    oneOf.isEmpty && propsOneOfFree props
      && (match items with | some (some i) => i.oneOfFree | _ => true)
      && (match addl with | some (_, some a) => a.oneOfFree | _ => true)
termination_by s => sizeOf s

/-- Are all property-entry subtrees `oneOf`-free? -/
def propsOneOfFree : List (String × Schema) → Bool
  | [] => true
  | (_, c) :: rest => c.oneOfFree && propsOneOfFree rest
termination_by l => sizeOf l

end

/-!
Embedding of the controller side (`resourcegroup_status.go`).

The condition helpers (`condition.SetCondition`, the `New*Condition`
constructors), the phase-error types of the `errors` package and the
requeue marker types of the `requeue` package are repository code that is
not under `src/`; they are modelled from the spec below.  `errors.As`
dispatch over an error's cause chain is embedded by recording, for each
error value, which of the four phase-error kinds (resp. which requeue
markers) the chain matches, plus the `Error()` text.  The status patch at
the end of `setResourceGroupStatus` is the external StatusPublisher
boundary; the embedding returns the derived (deep-copied) resource group
that the source hands to the patch.
-/

/-- The three condition types: `Ready` / `GraphVerified` / `TypeSynced` in
the spec's naming. -/
inductive ConditionType where
  | ReconcilerReady
  | GraphVerified
  | CustomResourceDefinitionSynced
deriving DecidableEq, Repr

/-- The `corev1.ConditionStatus` values used by the source. -/
inductive ConditionStatus where
  | ctrue
  | cfalse
  | cunknown
deriving DecidableEq, Repr

/-- Modelled from the spec: the `Condition` shape of §3 (the
`lastTransitionTime` bookkeeping is timestamp plumbing, excluded by §8's
idempotence note). -/
structure Condition where
  ctype : ConditionType
  status : ConditionStatus
  reason : String
  message : String
deriving DecidableEq, Repr

/-- Modelled from the spec: `condition.NewReconcilerReadyCondition` is not
under `src/`.  The `(status, reason, message)` argument order follows the
call sites in `resourcegroup_status.go`, where locals named `reason` are
passed as the second argument. -/
def NewReconcilerReadyCondition (status : ConditionStatus) (reason message : String) :
    Condition :=
  ⟨.ReconcilerReady, status, reason, message⟩

/-- Modelled from the spec: `condition.NewGraphVerifiedCondition`, see
`NewReconcilerReadyCondition`. -/
def NewGraphVerifiedCondition (status : ConditionStatus) (reason message : String) :
    Condition :=
  ⟨.GraphVerified, status, reason, message⟩

/-- Modelled from the spec: `condition.NewCustomResourceDefinitionSyncedCondition`,
see `NewReconcilerReadyCondition`. -/
def NewCustomResourceDefinitionSyncedCondition (status : ConditionStatus)
    (reason message : String) : Condition :=
  ⟨.CustomResourceDefinitionSynced, status, reason, message⟩

/-- Modelled from the spec: `condition.SetCondition` is not under `src/`.
Per §3 a condition update "is an upsert keyed by Type, leaving other
types untouched". -/
def SetCondition (conds : List Condition) (c : Condition) : List Condition :=
  if conds.any (fun x => x.ctype == c.ctype) then
    conds.map (fun x => if x.ctype == c.ctype then c else x)
  else
    conds ++ [c]

/-- The status subresource fields the source writes.  The source spells
the third field `TopoligicalOrder`; the embedding uses the intended
spelling. -/
structure ResourceGroupStatus where
  state : String
  topologicalOrder : List String
  conditions : List Condition
deriving DecidableEq, Repr

/-- The slice of `v1alpha1.ResourceGroup` that `setResourceGroupStatus`
reads and writes. -/
structure ResourceGroup where
  status : ResourceGroupStatus
deriving DecidableEq, Repr

/-- A reconcile error as consumed by `errors.As` dispatch: which of the
four phase-error kinds (`serr.ProcessCRDError`, `serr.ReconcileGraphError`,
`serr.ReconcileCRDError`, `serr.ReconcileMicroControllerError`) its cause
chain matches, and its `Error()` text. -/
structure ReconcileError where
  isProcessCRD : Bool
  isReconcileGraph : Bool
  isReconcileCRD : Bool
  isMicroController : Bool
  message : String
deriving DecidableEq, Repr

/-- Embedding of `setResourceGroupStatus` (resourcegroup_status.go lines
67–161): baseline conditions and ACTIVE state, then one block per matched
phase-error kind (the source's four `if` statements are independent, not
an `else if` chain), then INACTIVE whenever the error is non-nil.  The
returned value is the derived resource group handed to the status patch. -/
def setResourceGroupStatus (resourcegroup : ResourceGroup) (topologicalOrder : List String)
    (reconcileErr : Option ReconcileError) : ResourceGroup :=
  let conds0 := resourcegroup.status.conditions
  let conds1 := SetCondition conds0
    (NewReconcilerReadyCondition .ctrue "" "micro controller is ready")
  let conds2 := SetCondition conds1
    (NewGraphVerifiedCondition .ctrue "" "Directed Acyclic Graph is synced")
  let conds3 := SetCondition conds2
    (NewCustomResourceDefinitionSyncedCondition .ctrue "" "Custom Resource Definition is synced")
  match reconcileErr with
  | none => ⟨⟨"ACTIVE", topologicalOrder, conds3⟩⟩
  | some e =>
    let cA := if e.isProcessCRD then
        SetCondition (SetCondition (SetCondition conds3
          (NewGraphVerifiedCondition .cunknown ("error parsing schema: " ++ e.message)
            "Directed Acyclic Graph is synced"))
          (NewCustomResourceDefinitionSyncedCondition .cfalse
            ("error parsing schema: " ++ e.message) "Custom Resource Definition is synced"))
          (NewReconcilerReadyCondition .cunknown "Faulty Graph" "micro controller is ready")
      else conds3
    let cB := if e.isReconcileGraph then
        SetCondition (SetCondition (SetCondition cA
          (NewGraphVerifiedCondition .cfalse e.message "Directed Acyclic Graph is synced"))
          (NewReconcilerReadyCondition .cunknown "Faulty Graph" "micro controller is ready"))
          (NewCustomResourceDefinitionSyncedCondition .cunknown "Faulty Graph"
            "Custom Resource Definition is synced")
      else cA
    let cC := if e.isReconcileCRD then
        SetCondition (SetCondition (SetCondition cB
          (NewGraphVerifiedCondition .ctrue "" "Directed Acyclic Graph is synced"))
          (NewCustomResourceDefinitionSyncedCondition .cfalse e.message
            "Custom Resource Definition is synced"))
          (NewReconcilerReadyCondition .cunknown "CRD not-synced" "micro controller is ready")
      else cB
    let cD := if e.isMicroController then
        SetCondition (SetCondition (SetCondition cC
          (NewGraphVerifiedCondition .ctrue "" "Directed Acyclic Graph is synced"))
          (NewCustomResourceDefinitionSyncedCondition .ctrue ""
            "Custom Resource Definition is synced"))
          (NewReconcilerReadyCondition .cfalse e.message "micro controller is ready")
      else cC
    ⟨⟨"INACTIVE", topologicalOrder, cD⟩⟩

/-- The first condition of a given type, as an external reader of the
conditions slice finds it. -/
def getCondition (conds : List Condition) (t : ConditionType) : Option Condition :=
  conds.find? (fun c => c.ctype == t)

/-- Embedding of `ctrl.Result`: `Requeue` and `RequeueAfter`
(a `time.Duration`, i.e. an `int64` nanosecond count). -/
structure CtrlResult where
  requeue : Bool
  requeueAfter : Int
deriving DecidableEq, Repr

/-- An error as consumed by `handleReconcileError`'s `errors.As` dispatch
over the requeue marker types (`requeue.RequeueNeededAfter` with its
duration, `requeue.RequeueNeeded`, `requeue.NoRequeue`); the marker types
are repository code not under `src/`, modelled from §4.3 of the spec. -/
structure ReqError where
  after : Option Int
  now : Bool
  noRequeue : Bool
deriving DecidableEq, Repr

/-- Embedding of `handleReconcileError` (resourcegroup_status.go lines
36–65): the pair is the `(ctrl.Result, error)` return, with the error
position holding the propagated input error or `none`. -/
def handleReconcileError (err : Option ReqError) : CtrlResult × Option ReqError :=
  match err with
  | none => (⟨false, 0⟩, none)
  | some e =>
    match e.after with
    | some d => (⟨false, d⟩, none)
    | none =>
      if e.now then (⟨true, 0⟩, none)
      else if e.noRequeue then (⟨false, 0⟩, none)
      else (⟨false, 0⟩, some e)

theorem find?_map_upsert_self (xs : List Condition) (c : Condition)
    (hany : xs.any (fun x => x.ctype == c.ctype) = true) :
    (xs.map (fun x => if x.ctype == c.ctype then c else x)).find?
      (fun y => y.ctype == c.ctype) = some c := by
  induction xs with
  | nil => simp at hany
  | cons x xs ih =>
    cases hxc : (x.ctype == c.ctype) with
    | true =>
      simp only [List.map_cons, List.find?, hxc, if_true, beq_self_eq_true]
    | false =>
      have hany' : xs.any (fun x => x.ctype == c.ctype) = true := by
        simpa [hxc] using hany
      simp only [List.map_cons, List.find?, hxc, if_false, Bool.false_eq_true, ih hany']

theorem find?_map_upsert_other (xs : List Condition) (c : Condition) (t : ConditionType)
    (hcf : (c.ctype == t) = false) :
    (xs.map (fun x => if x.ctype == c.ctype then c else x)).find?
      (fun y => y.ctype == t) = xs.find? (fun y => y.ctype == t) := by
  induction xs with
  | nil => rfl
  | cons x xs ih =>
    cases hxc : (x.ctype == c.ctype) with
    | true =>
      have hxt : (x.ctype == t) = false := by
        have : x.ctype = c.ctype := by simpa using hxc
        rw [this]; exact hcf
      simp only [List.map_cons, List.find?, hxc, if_true, hcf, hxt, ih]
    | false =>
      cases hxt : (x.ctype == t) with
      | true => simp only [List.map_cons, List.find?, hxc, if_false, Bool.false_eq_true, hxt]
      | false => simp only [List.map_cons, List.find?, hxc, if_false, Bool.false_eq_true, hxt, ih]

theorem getCondition_SetCondition_self (conds : List Condition) (c : Condition) :
    getCondition (SetCondition conds c) c.ctype = some c := by
  unfold getCondition SetCondition
  by_cases hany : conds.any (fun x => x.ctype == c.ctype)
  · simp only [hany, if_true]
    exact find?_map_upsert_self conds c hany
  · simp only [hany, if_false, Bool.false_eq_true]
    have hnone : conds.find? (fun y => y.ctype == c.ctype) = none := by
      rw [List.find?_eq_none]
      intro x hx hb
      rw [Bool.not_eq_true] at hany
      have : conds.any (fun x => x.ctype == c.ctype) = true :=
        List.any_eq_true.mpr ⟨x, hx, hb⟩
      rw [this] at hany
      exact Bool.noConfusion hany
    rw [List.find?_append, hnone]
    simp [List.find?]

theorem getCondition_SetCondition_other (conds : List Condition) (c : Condition)
    (t : ConditionType) (h : t ≠ c.ctype) :
    getCondition (SetCondition conds c) t = getCondition conds t := by
  have hcf : (c.ctype == t) = false := by simp [Ne.symm h]
  unfold getCondition SetCondition
  by_cases hany : conds.any (fun x => x.ctype == c.ctype)
  · simp only [hany, if_true]
    exact find?_map_upsert_other conds c t hcf
  · simp only [hany, if_false, Bool.false_eq_true]
    rw [List.find?_append]
    simp [List.find?, hcf]

theorem getCondition_mk_self (conds : List Condition) (t : ConditionType)
    (s : ConditionStatus) (r m : String) :
    getCondition (SetCondition conds ⟨t, s, r, m⟩) t = some ⟨t, s, r, m⟩ :=
  getCondition_SetCondition_self conds ⟨t, s, r, m⟩

theorem getCondition_mk_other (conds : List Condition) (t t' : ConditionType)
    (s : ConditionStatus) (r m : String) (h : t' ≠ t) :
    getCondition (SetCondition conds ⟨t, s, r, m⟩) t' = getCondition conds t' :=
  getCondition_SetCondition_other conds ⟨t, s, r, m⟩ t' h

/-- C5: when `setResourceGroupStatus` is invoked with a nil reconcile
error, the derived status has all three conditions True, State ACTIVE and
the topological-order input recorded. -/
theorem c5_no_error_baseline (rg : ResourceGroup) (topo : List String) :
    getCondition (setResourceGroupStatus rg topo none).status.conditions .ReconcilerReady
        = some ⟨.ReconcilerReady, .ctrue, "", "micro controller is ready"⟩
      ∧ getCondition (setResourceGroupStatus rg topo none).status.conditions .GraphVerified
        = some ⟨.GraphVerified, .ctrue, "", "Directed Acyclic Graph is synced"⟩
      ∧ getCondition (setResourceGroupStatus rg topo none).status.conditions
            .CustomResourceDefinitionSynced
        = some ⟨.CustomResourceDefinitionSynced, .ctrue, "",
            "Custom Resource Definition is synced"⟩
      ∧ (setResourceGroupStatus rg topo none).status.state = "ACTIVE"
      ∧ (setResourceGroupStatus rg topo none).status.topologicalOrder = topo := by
  refine ⟨?_, ?_, ?_, rfl, rfl⟩ <;>
    simp only [setResourceGroupStatus, NewReconcilerReadyCondition, NewGraphVerifiedCondition,
      NewCustomResourceDefinitionSyncedCondition, getCondition_mk_self, getCondition_mk_other,
      ne_eq, reduceCtorEq, not_false_eq_true]

/-- C1: for a reconcile error matching exactly one of the four phase-error
kinds, `setResourceGroupStatus` derives the §4.4 table of condition Status
values (SchemaError: GraphVerified=Unknown, TypeSynced=False,
Ready=Unknown; GraphError: False/Unknown/Unknown; SyncError:
True/False/Unknown; ReadinessError: True/True/False) and in each case
State=INACTIVE. -/
theorem c1_phase_error_condition_table (rg : ResourceGroup) (topo : List String)
    (e : ReconcileError) :
    (e.isProcessCRD = true → e.isReconcileGraph = false → e.isReconcileCRD = false →
      e.isMicroController = false →
      (getCondition (setResourceGroupStatus rg topo (some e)).status.conditions
          .GraphVerified).map Condition.status = some .cunknown
        ∧ (getCondition (setResourceGroupStatus rg topo (some e)).status.conditions
            .CustomResourceDefinitionSynced).map Condition.status = some .cfalse
        ∧ (getCondition (setResourceGroupStatus rg topo (some e)).status.conditions
            .ReconcilerReady).map Condition.status = some .cunknown
        ∧ (setResourceGroupStatus rg topo (some e)).status.state = "INACTIVE")
    ∧ (e.isProcessCRD = false → e.isReconcileGraph = true → e.isReconcileCRD = false →
      e.isMicroController = false →
      (getCondition (setResourceGroupStatus rg topo (some e)).status.conditions
          .GraphVerified).map Condition.status = some .cfalse
        ∧ (getCondition (setResourceGroupStatus rg topo (some e)).status.conditions
            .CustomResourceDefinitionSynced).map Condition.status = some .cunknown
        ∧ (getCondition (setResourceGroupStatus rg topo (some e)).status.conditions
            .ReconcilerReady).map Condition.status = some .cunknown
        ∧ (setResourceGroupStatus rg topo (some e)).status.state = "INACTIVE")
    ∧ (e.isProcessCRD = false → e.isReconcileGraph = false → e.isReconcileCRD = true →
      e.isMicroController = false →
      (getCondition (setResourceGroupStatus rg topo (some e)).status.conditions
          .GraphVerified).map Condition.status = some .ctrue
        ∧ (getCondition (setResourceGroupStatus rg topo (some e)).status.conditions
            .CustomResourceDefinitionSynced).map Condition.status = some .cfalse
        ∧ (getCondition (setResourceGroupStatus rg topo (some e)).status.conditions
            .ReconcilerReady).map Condition.status = some .cunknown
        ∧ (setResourceGroupStatus rg topo (some e)).status.state = "INACTIVE")
    ∧ (e.isProcessCRD = false → e.isReconcileGraph = false → e.isReconcileCRD = false →
      e.isMicroController = true →
      (getCondition (setResourceGroupStatus rg topo (some e)).status.conditions
          .GraphVerified).map Condition.status = some .ctrue
        ∧ (getCondition (setResourceGroupStatus rg topo (some e)).status.conditions
            .CustomResourceDefinitionSynced).map Condition.status = some .ctrue
        ∧ (getCondition (setResourceGroupStatus rg topo (some e)).status.conditions
            .ReconcilerReady).map Condition.status = some .cfalse
        ∧ (setResourceGroupStatus rg topo (some e)).status.state = "INACTIVE") := by
  refine ⟨fun h1 h2 h3 h4 => ?_, fun h1 h2 h3 h4 => ?_, fun h1 h2 h3 h4 => ?_,
    fun h1 h2 h3 h4 => ?_⟩ <;>
    simp [setResourceGroupStatus, h1, h2, h3, h4, NewReconcilerReadyCondition,
      NewGraphVerifiedCondition, NewCustomResourceDefinitionSyncedCondition,
      getCondition_mk_self, getCondition_mk_other]

/-- C9: a non-nil reconcile error matching none of the four phase-error
kinds still forces State INACTIVE while leaving all three conditions at
the baseline Status True, and still records the topological order. -/
theorem c9_unmatched_error_inactive (rg : ResourceGroup) (topo : List String)
    (e : ReconcileError) (h1 : e.isProcessCRD = false) (h2 : e.isReconcileGraph = false)
    (h3 : e.isReconcileCRD = false) (h4 : e.isMicroController = false) :
    getCondition (setResourceGroupStatus rg topo (some e)).status.conditions .ReconcilerReady
        = some ⟨.ReconcilerReady, .ctrue, "", "micro controller is ready"⟩
      ∧ getCondition (setResourceGroupStatus rg topo (some e)).status.conditions .GraphVerified
        = some ⟨.GraphVerified, .ctrue, "", "Directed Acyclic Graph is synced"⟩
      ∧ getCondition (setResourceGroupStatus rg topo (some e)).status.conditions
            .CustomResourceDefinitionSynced
        = some ⟨.CustomResourceDefinitionSynced, .ctrue, "",
            "Custom Resource Definition is synced"⟩
      ∧ (setResourceGroupStatus rg topo (some e)).status.state = "INACTIVE"
      ∧ (setResourceGroupStatus rg topo (some e)).status.topologicalOrder = topo := by
  refine ⟨?_, ?_, ?_, ?_, ?_⟩ <;>
    simp [setResourceGroupStatus, h1, h2, h3, h4, NewReconcilerReadyCondition,
      NewGraphVerifiedCondition, NewCustomResourceDefinitionSyncedCondition,
      getCondition_mk_self, getCondition_mk_other]

/-- C9 witness: the theorem applied to a concrete unmatched error. -/
theorem c9_witness :
    getCondition (setResourceGroupStatus ⟨⟨"", [], []⟩⟩ ["r1"]
          (some ⟨false, false, false, false, "some infra failure"⟩)).status.conditions
        .ReconcilerReady
        = some ⟨.ReconcilerReady, .ctrue, "", "micro controller is ready"⟩
      ∧ getCondition (setResourceGroupStatus ⟨⟨"", [], []⟩⟩ ["r1"]
          (some ⟨false, false, false, false, "some infra failure"⟩)).status.conditions
        .GraphVerified
        = some ⟨.GraphVerified, .ctrue, "", "Directed Acyclic Graph is synced"⟩
      ∧ getCondition (setResourceGroupStatus ⟨⟨"", [], []⟩⟩ ["r1"]
          (some ⟨false, false, false, false, "some infra failure"⟩)).status.conditions
        .CustomResourceDefinitionSynced
        = some ⟨.CustomResourceDefinitionSynced, .ctrue, "",
            "Custom Resource Definition is synced"⟩
      ∧ (setResourceGroupStatus ⟨⟨"", [], []⟩⟩ ["r1"]
          (some ⟨false, false, false, false, "some infra failure"⟩)).status.state = "INACTIVE"
      ∧ (setResourceGroupStatus ⟨⟨"", [], []⟩⟩ ["r1"]
          (some ⟨false, false, false, false, "some infra failure"⟩)).status.topologicalOrder
        = ["r1"] :=
  c9_unmatched_error_inactive ⟨⟨"", [], []⟩⟩ ["r1"]
    ⟨false, false, false, false, "some infra failure"⟩ rfl rfl rfl rfl

/-- C10: a nil error yields the empty result and a nil error: no requeue
and no requeue-after delay. -/
theorem c10_nil_error_empty_result :
    handleReconcileError none = (⟨false, 0⟩, none) := rfl

/-- C6: `handleReconcileError` matches requeue markers in priority order
After, Now, None; a matched marker yields the corresponding scheduler
directive with no error, and an unmatched error is propagated unchanged. -/
theorem c6_requeue_priority (e : ReqError) :
    (∀ d : Int, e.after = some d →
      handleReconcileError (some e) = (⟨false, d⟩, none))
    ∧ (e.after = none → e.now = true →
      handleReconcileError (some e) = (⟨true, 0⟩, none))
    ∧ (e.after = none → e.now = false → e.noRequeue = true →
      handleReconcileError (some e) = (⟨false, 0⟩, none))
    ∧ (e.after = none → e.now = false → e.noRequeue = false →
      handleReconcileError (some e) = (⟨false, 0⟩, some e)) := by
  refine ⟨fun d hd => ?_, fun h1 h2 => ?_, fun h1 h2 h3 => ?_, fun h1 h2 h3 => ?_⟩ <;>
    simp [handleReconcileError, *]

/-- C6 witness: an error carrying all three markers takes the After
directive (priority), with the marker duration and no error. -/
theorem c6_witness :
    handleReconcileError (some ⟨some 7, true, true⟩) = (⟨false, 7⟩, none) :=
  (c6_requeue_priority ⟨some 7, true, true⟩).1 7 rfl

/-- C1 witness: the table's GraphError row applied to a concrete error. -/
theorem c1_witness :
    (getCondition (setResourceGroupStatus ⟨⟨"", [], []⟩⟩ []
        (some ⟨false, true, false, false, "boom"⟩)).status.conditions
        .GraphVerified).map Condition.status = some .cfalse
      ∧ (getCondition (setResourceGroupStatus ⟨⟨"", [], []⟩⟩ []
          (some ⟨false, true, false, false, "boom"⟩)).status.conditions
          .CustomResourceDefinitionSynced).map Condition.status = some .cunknown
      ∧ (getCondition (setResourceGroupStatus ⟨⟨"", [], []⟩⟩ []
          (some ⟨false, true, false, false, "boom"⟩)).status.conditions
          .ReconcilerReady).map Condition.status = some .cunknown
      ∧ (setResourceGroupStatus ⟨⟨"", [], []⟩⟩ []
          (some ⟨false, true, false, false, "boom"⟩)).status.state = "INACTIVE" :=
  (c1_phase_error_condition_table ⟨⟨"", [], []⟩⟩ []
    ⟨false, true, false, false, "boom"⟩).2.1 rfl rfl rfl rfl

/-- C3 counterexample: for a GraphError with cause text "boom", the
GraphVerified condition written on the error path carries the raw cause
text in its Reason field and a fixed description in its Message field, so
the claimed "Reason fixed token, Message = raw cause text" fails. -/
theorem c3_counterexample :
    getCondition (setResourceGroupStatus ⟨⟨"", [], []⟩⟩ []
        (some ⟨false, true, false, false, "boom"⟩)).status.conditions .GraphVerified
      = some ⟨.GraphVerified, .cfalse, "boom", "Directed Acyclic Graph is synced"⟩
    ∧ ("Directed Acyclic Graph is synced" = "boom" → False) := by
  constructor
  · rfl
  · decide

/-- C3 amended: on the error path the roles are the reverse of the claim:
every condition's Message is a fixed per-type description independent of
the cause text, while the cause text is carried in the Reason field of
the conditions the kind drives (prefixed with "error parsing schema: "
for the SchemaError kind, verbatim otherwise); the sibling conditions get
fixed short Reason tokens ("", "Faulty Graph", "CRD not-synced"). -/
theorem c3_amended_reason_message_roles (rg : ResourceGroup) (topo : List String)
    (e : ReconcileError) :
    (e.isProcessCRD = true → e.isReconcileGraph = false → e.isReconcileCRD = false →
      e.isMicroController = false →
      getCondition (setResourceGroupStatus rg topo (some e)).status.conditions .GraphVerified
          = some ⟨.GraphVerified, .cunknown, "error parsing schema: " ++ e.message,
              "Directed Acyclic Graph is synced"⟩
        ∧ getCondition (setResourceGroupStatus rg topo (some e)).status.conditions
              .CustomResourceDefinitionSynced
          = some ⟨.CustomResourceDefinitionSynced, .cfalse,
              "error parsing schema: " ++ e.message, "Custom Resource Definition is synced"⟩
        ∧ getCondition (setResourceGroupStatus rg topo (some e)).status.conditions
              .ReconcilerReady
          = some ⟨.ReconcilerReady, .cunknown, "Faulty Graph", "micro controller is ready"⟩)
    ∧ (e.isProcessCRD = false → e.isReconcileGraph = true → e.isReconcileCRD = false →
      e.isMicroController = false →
      getCondition (setResourceGroupStatus rg topo (some e)).status.conditions .GraphVerified
          = some ⟨.GraphVerified, .cfalse, e.message, "Directed Acyclic Graph is synced"⟩
        ∧ getCondition (setResourceGroupStatus rg topo (some e)).status.conditions
              .CustomResourceDefinitionSynced
          = some ⟨.CustomResourceDefinitionSynced, .cunknown, "Faulty Graph",
              "Custom Resource Definition is synced"⟩
        ∧ getCondition (setResourceGroupStatus rg topo (some e)).status.conditions
              .ReconcilerReady
          = some ⟨.ReconcilerReady, .cunknown, "Faulty Graph", "micro controller is ready"⟩)
    ∧ (e.isProcessCRD = false → e.isReconcileGraph = false → e.isReconcileCRD = true →
      e.isMicroController = false →
      getCondition (setResourceGroupStatus rg topo (some e)).status.conditions .GraphVerified
          = some ⟨.GraphVerified, .ctrue, "", "Directed Acyclic Graph is synced"⟩
        ∧ getCondition (setResourceGroupStatus rg topo (some e)).status.conditions
              .CustomResourceDefinitionSynced
          = some ⟨.CustomResourceDefinitionSynced, .cfalse, e.message,
              "Custom Resource Definition is synced"⟩
        ∧ getCondition (setResourceGroupStatus rg topo (some e)).status.conditions
              .ReconcilerReady
          = some ⟨.ReconcilerReady, .cunknown, "CRD not-synced", "micro controller is ready"⟩)
    ∧ (e.isProcessCRD = false → e.isReconcileGraph = false → e.isReconcileCRD = false →
      e.isMicroController = true →
      getCondition (setResourceGroupStatus rg topo (some e)).status.conditions .GraphVerified
          = some ⟨.GraphVerified, .ctrue, "", "Directed Acyclic Graph is synced"⟩
        ∧ getCondition (setResourceGroupStatus rg topo (some e)).status.conditions
              .CustomResourceDefinitionSynced
          = some ⟨.CustomResourceDefinitionSynced, .ctrue, "",
              "Custom Resource Definition is synced"⟩
        ∧ getCondition (setResourceGroupStatus rg topo (some e)).status.conditions
              .ReconcilerReady
          = some ⟨.ReconcilerReady, .cfalse, e.message, "micro controller is ready"⟩) := by
  refine ⟨fun h1 h2 h3 h4 => ?_, fun h1 h2 h3 h4 => ?_, fun h1 h2 h3 h4 => ?_,
    fun h1 h2 h3 h4 => ?_⟩ <;>
    simp [setResourceGroupStatus, h1, h2, h3, h4, NewReconcilerReadyCondition,
      NewGraphVerifiedCondition, NewCustomResourceDefinitionSyncedCondition,
      getCondition_mk_self, getCondition_mk_other]

/-- C3 witness: the amended theorem's SchemaError row applied to a
concrete cause. -/
theorem c3_witness :
    getCondition (setResourceGroupStatus ⟨⟨"", [], []⟩⟩ []
          (some ⟨true, false, false, false, "bad schema"⟩)).status.conditions .GraphVerified
        = some ⟨.GraphVerified, .cunknown, "error parsing schema: bad schema",
            "Directed Acyclic Graph is synced"⟩
      ∧ getCondition (setResourceGroupStatus ⟨⟨"", [], []⟩⟩ []
            (some ⟨true, false, false, false, "bad schema"⟩)).status.conditions
            .CustomResourceDefinitionSynced
        = some ⟨.CustomResourceDefinitionSynced, .cfalse, "error parsing schema: bad schema",
            "Custom Resource Definition is synced"⟩
      ∧ getCondition (setResourceGroupStatus ⟨⟨"", [], []⟩⟩ []
            (some ⟨true, false, false, false, "bad schema"⟩)).status.conditions
            .ReconcilerReady
        = some ⟨.ReconcilerReady, .cunknown, "Faulty Graph", "micro controller is ready"⟩ := by
  have h := (c3_amended_reason_message_roles ⟨⟨"", [], []⟩⟩ []
    ⟨true, false, false, false, "bad schema"⟩).1 rfl rfl rfl rfl
  simpa using h

/-- C2: evaluation at the failing input.  For an array node whose schema
has no `Items` schema but does declare (parent) `Properties`, the walk
does not fall back to a synthesized object schema: it fails, because the
source's fallback branch re-tests `Items.Schema != nil`, which has just
failed, making the fallback unreachable; the error text even claims that
no `Properties` are defined although they are. -/
theorem c2_array_items_fallback_dead :
    parseResource (.arr [.str "$\x7bx\x7d"])
        (some (.mk ["array"] [("a", .mk ["string"] [] none none [])] none none [])) ""
      = .error
        "invalid array schema for path : neither Items.Schema nor Properties are defined" := by
  simp [parseResource, normalizeType, resolveExpectedType, addlAllows, arrayItemSchema,
    itemsSchemaOf, Schema.type, Schema.oneOf, Schema.addl, Schema.items, Schema.properties]

/-- C4: evaluation at the failing input.  The value `"$\x7ba\x7bb\x7d\x7d"`
is classified one-shot, but the emitted expression body is the result of
Go's `strings.Trim(field, "$\x7b\x7d")`, which strips every trailing
closing brace: the recovered inner text is `a\x7bb`, not the claimed
`a\x7bb\x7d`. -/
theorem c4_oneshot_trim_truncates :
    isOneShotExpression "$\x7ba\x7bb\x7d\x7d" = .ok true
      ∧ parseResource (.str "$\x7ba\x7bb\x7d\x7d") (some (.mk ["string"] [] none none [])) ""
        = .ok [⟨"", ["a\x7bb"], "string", some (.mk ["string"] [] none none []), true⟩]
      ∧ ("a\x7bb" = "a\x7bb\x7d" → False) := by
  have hone : isOneShotExpression "$\x7ba\x7bb\x7d\x7d" = .ok true := by rfl
  have htrim : goTrim "$\x7ba\x7bb\x7d\x7d" trimCutset = "a\x7bb" := by rfl
  refine ⟨hone, ?_, by decide⟩
  simp [parseResource, parseStringLeaf, hone, htrim, normalizeType, resolveExpectedType,
    addlAllows, Schema.type, Schema.oneOf, Schema.addl]

/-! Helper lemmas for the ExpressionField invariant. -/

theorem checkScalar_ok_nil (v : Value) (t p : String) (out : List ExpressionField)
    (h : checkScalar v t p = .ok out) : out = [] := by
  unfold checkScalar at h
  repeat' split at h
  all_goals simp_all

theorem parseStringLeaf_invariant (s : String) (sc : Schema) (t p : String)
    (out : List ExpressionField) (h : parseStringLeaf s sc t p = .ok out) :
    ∀ f ∈ out, (f.oneShotCEL = true → f.expressions.length = 1)
      ∧ (f.oneShotCEL = false → 1 ≤ f.expressions.length) := by
  unfold parseStringLeaf at h
  repeat' split at h
  all_goals try simp_all
  all_goals subst h
  all_goals intro f hf
  all_goals simp only [List.mem_singleton] at hf
  all_goals subst hf
  all_goals refine ⟨fun h1 => ?_, fun h0 => ?_⟩
  all_goals try simp_all
  all_goals omega

theorem parse_invariant_aux (n : Nat) :
    (∀ r s? p out, sizeOf r ≤ n → parseResource r s? p = .ok out →
      ∀ f ∈ out, (f.oneShotCEL = true → f.expressions.length = 1)
        ∧ (f.oneShotCEL = false → 1 ≤ f.expressions.length))
    ∧ (∀ fs sc p out, sizeOf fs ≤ n → parseObjFields fs sc p = .ok out →
      ∀ f ∈ out, (f.oneShotCEL = true → f.expressions.length = 1)
        ∧ (f.oneShotCEL = false → 1 ≤ f.expressions.length))
    ∧ (∀ vs sc p i out, sizeOf vs ≤ n → parseArrItems vs sc p i = .ok out →
      ∀ f ∈ out, (f.oneShotCEL = true → f.expressions.length = 1)
        ∧ (f.oneShotCEL = false → 1 ≤ f.expressions.length)) := by
  induction n with
  | zero =>
    refine ⟨fun r s? p out hsz => ?_, fun fs sc p out hsz => ?_,
      fun vs sc p i out hsz => ?_⟩
    · exact absurd hsz (by cases r <;> simp)
    · exact absurd hsz (by cases fs <;> simp)
    · exact absurd hsz (by cases vs <;> simp)
  | succ n ih =>
    obtain ⟨ihR, ihF, ihA⟩ := ih
    refine ⟨fun r s? p out hsz heq => ?_, fun fs sc p out hsz heq => ?_,
      fun vs sc p i out hsz heq => ?_⟩
    · cases s? with
      | none => simp [parseResource] at heq
      | some sc0 =>
        cases hn : normalizeType sc0 with
        | error e => simp [parseResource, hn] at heq
        | ok sc =>
          cases r with
          | obj fields =>
            simp only [parseResource, hn] at heq
            split at heq
            · exact absurd heq (by simp)
            · exact ihF fields sc p out (by simp at hsz; omega) heq
          | arr items =>
            simp only [parseResource, hn] at heq
            split at heq
            · exact absurd heq (by simp)
            · split at heq
              · exact absurd heq (by simp)
              · exact ihA items _ p 0 out (by simp at hsz; omega) heq
          | str s =>
            simp only [parseResource, hn] at heq
            exact parseStringLeaf_invariant s sc _ p out heq
          | num =>
            simp only [parseResource, hn] at heq
            have hnil := checkScalar_ok_nil _ _ _ _ heq
            subst hnil
            intro f hf
            exact absurd hf (by simp)
          | intv =>
            simp only [parseResource, hn] at heq
            have hnil := checkScalar_ok_nil _ _ _ _ heq
            subst hnil
            intro f hf
            exact absurd hf (by simp)
          | boolv =>
            simp only [parseResource, hn] at heq
            have hnil := checkScalar_ok_nil _ _ _ _ heq
            subst hnil
            intro f hf
            exact absurd hf (by simp)
          | other =>
            simp only [parseResource, hn] at heq
            have hnil := checkScalar_ok_nil _ _ _ _ heq
            subst hnil
            intro f hf
            exact absurd hf (by simp)
    · cases fs with
      | nil =>
        simp only [parseObjFields, Except.ok.injEq] at heq
        subst heq
        intro f hf
        exact absurd hf (by simp)
      | cons hd rest =>
        obtain ⟨fname, fval⟩ := hd
        simp only [parseObjFields] at heq
        cases hg : getFieldSchema sc fname with
        | error e =>
          simp only [hg] at heq
          exact absurd heq (by simp)
        | ok fsc =>
          simp only [hg] at heq
          cases hp : parseResource fval (some fsc) (p ++ "." ++ fname) with
          | error e =>
            simp only [hp] at heq
            exact absurd heq (by simp)
          | ok fx =>
            simp only [hp] at heq
            cases hr : parseObjFields rest sc p with
            | error e =>
              simp only [hr] at heq
              exact absurd heq (by simp)
            | ok rx =>
              simp only [hr, Except.ok.injEq] at heq
              subst heq
              intro f hf
              rcases List.mem_append.mp hf with hf | hf
              · exact ihR fval (some fsc) _ fx (by simp at hsz; omega) hp f hf
              · exact ihF rest sc p rx (by simp at hsz; omega) hr f hf
    · cases vs with
      | nil =>
        simp only [parseArrItems, Except.ok.injEq] at heq
        subst heq
        intro f hf
        exact absurd hf (by simp)
      | cons item rest =>
        simp only [parseArrItems] at heq
        cases hp : parseResource item (some sc) (p ++ "[" ++ toString i ++ "]") with
        | error e =>
          simp only [hp] at heq
          exact absurd heq (by simp)
        | ok fx =>
          simp only [hp] at heq
          cases hr : parseArrItems rest sc p (i + 1) with
          | error e =>
            simp only [hr] at heq
            exact absurd heq (by simp)
          | ok rx =>
            simp only [hr, Except.ok.injEq] at heq
            subst heq
            intro f hf
            rcases List.mem_append.mp hf with hf | hf
            · exact ihR item (some sc) _ fx (by simp at hsz; omega) hp f hf
            · exact ihA rest sc p (i + 1) rx (by simp at hsz; omega) hr f hf

/-- C8: every ExpressionField returned by `ParseResource` satisfies the
invariant: OneShotCEL implies exactly one Expressions entry, and
not-OneShotCEL implies at least one entry. -/
theorem c8_expression_field_invariant (resource : List (String × Value))
    (schema? : Option Schema) (out : List ExpressionField)
    (h : ParseResource resource schema? = .ok out) (f : ExpressionField) (hf : f ∈ out) :
    (f.oneShotCEL = true → f.expressions.length = 1)
      ∧ (f.oneShotCEL = false → 1 ≤ f.expressions.length) :=
  (parse_invariant_aux (sizeOf (Value.obj resource))).1 (Value.obj resource) schema? "" out
    le_rfl h f hf

/-- C8 witness: the invariant instantiated on the one-shot field produced
from a concrete document. -/
theorem c8_witness :
    ((ExpressionField.mk ".a" ["x"] "string"
        (some (.mk ["string"] [] none none [])) true).oneShotCEL = true →
      (ExpressionField.mk ".a" ["x"] "string"
        (some (.mk ["string"] [] none none [])) true).expressions.length = 1)
    ∧ ((ExpressionField.mk ".a" ["x"] "string"
        (some (.mk ["string"] [] none none [])) true).oneShotCEL = false →
      1 ≤ (ExpressionField.mk ".a" ["x"] "string"
        (some (.mk ["string"] [] none none [])) true).expressions.length) := by
  have hone : isOneShotExpression "$\x7bx\x7d" = .ok true := by rfl
  have htrim : goTrim "$\x7bx\x7d" trimCutset = "x" := by rfl
  refine c8_expression_field_invariant [("a", .str "$\x7bx\x7d")]
    (some (.mk ["object"] [("a", .mk ["string"] [] none none [])] none none []))
    [⟨".a", ["x"], "string", some (.mk ["string"] [] none none []), true⟩] ?_ _ (by simp)
  simp [ParseResource, parseResource, parseObjFields, parseStringLeaf, getFieldSchema,
    normalizeType, resolveExpectedType, addlAllows, hone, htrim, Schema.type, Schema.oneOf,
    Schema.addl, Schema.properties, List.lookup]

/-! Helper lemmas for the schema post-state model. -/

theorem withType_self (s : Schema) : s.withType s.type = s := by
  cases s; rfl

theorem withProperties_self (s : Schema) : s.withProperties s.properties = s := by
  cases s; rfl

theorem withAddl_self (s : Schema) : s.withAddl s.addl = s := by
  cases s; rfl

theorem withItemsSchema_self (s i : Schema) (h : itemsSchemaOf s = some i) :
    s.withItemsSchema i = s := by
  cases s with
  | mk t p it a o =>
    cases it with
    | none => simp [itemsSchemaOf, Schema.items] at h
    | some it2 =>
      cases it2 with
      | none => simp [itemsSchemaOf, Schema.items] at h
      | some j =>
        have hj : j = i := by simpa [itemsSchemaOf, Schema.items] using h
        simp [Schema.withItemsSchema, hj]

theorem type_withProperties (s : Schema) (ps : List (String × Schema)) :
    (s.withProperties ps).type = s.type := by
  cases s; rfl

theorem type_withAddl (s : Schema) (a : Option (Bool × Option Schema)) :
    (s.withAddl a).type = s.type := by
  cases s; rfl

theorem type_withItemsSchema (s i : Schema) : (s.withItemsSchema i).type = s.type := by
  cases s; rfl

theorem setPropEntry_lookup_self (props : List (String × Schema)) (f : String) (c : Schema)
    (h : List.lookup f props = some c) : setPropEntry props f c = props := by
  induction props with
  | nil => simp [List.lookup] at h
  | cons kv rest ih =>
    obtain ⟨k, v⟩ := kv
    cases hk : (f == k) with
    | true =>
      simp [List.lookup, hk] at h
      simp [setPropEntry, hk, h]
    | false =>
      simp [List.lookup, hk] at h
      simp [setPropEntry, hk, ih h]

theorem oneOfFree_oneOf_nil (s : Schema) (h : s.oneOfFree = true) : s.oneOf = [] := by
  cases s with
  | mk t p it a o =>
    rw [Schema.oneOfFree.eq_def] at h
    simp only [Bool.and_eq_true] at h
    simpa [Schema.oneOf] using h.1.1.1

theorem oneOfFree_propsAll (s : Schema) (h : s.oneOfFree = true) :
    propsOneOfFree s.properties = true := by
  cases s with
  | mk t p it a o =>
    rw [Schema.oneOfFree.eq_def] at h
    simp only [Bool.and_eq_true] at h
    simpa [Schema.properties] using h.1.1.2

theorem propsOneOfFree_lookup (props : List (String × Schema)) (f : String) (c : Schema)
    (hp : propsOneOfFree props = true) (h : List.lookup f props = some c) :
    c.oneOfFree = true := by
  induction props with
  | nil => simp [List.lookup] at h
  | cons kv rest ih =>
    obtain ⟨k, v⟩ := kv
    rw [propsOneOfFree.eq_def] at hp
    simp only [Bool.and_eq_true] at hp
    cases hk : (f == k) with
    | true =>
      simp [List.lookup, hk] at h
      rw [← h]
      exact hp.1
    | false =>
      simp [List.lookup, hk] at h
      exact ih hp.2 h

theorem oneOfFree_prop (s : Schema) (f : String) (c : Schema) (h : s.oneOfFree = true)
    (hc : List.lookup f s.properties = some c) : c.oneOfFree = true :=
  propsOneOfFree_lookup s.properties f c (oneOfFree_propsAll s h) hc

theorem oneOfFree_addl (s : Schema) (b : Bool) (x : Schema) (h : s.oneOfFree = true)
    (ha : s.addl = some (b, some x)) : x.oneOfFree = true := by
  cases s with
  | mk t p it ad o =>
    simp only [Schema.addl] at ha
    subst ha
    rw [Schema.oneOfFree.eq_def] at h
    simp only [Bool.and_eq_true] at h
    exact h.2

theorem oneOfFree_items (s i : Schema) (h : s.oneOfFree = true)
    (hi : itemsSchemaOf s = some i) : i.oneOfFree = true := by
  cases s with
  | mk t p it a o =>
    cases it with
    | none => simp [itemsSchemaOf, Schema.items] at hi
    | some it2 =>
      cases it2 with
      | none => simp [itemsSchemaOf, Schema.items] at hi
      | some j =>
        have hj : j = i := by simpa [itemsSchemaOf, Schema.items] using hi
        rw [Schema.oneOfFree.eq_def] at h
        simp only [Bool.and_eq_true] at h
        rw [← hj]
        exact h.1.2

theorem type_withType (s : Schema) (ts : List String) : (s.withType ts).type = ts := by
  cases s; rfl

theorem parseObjFieldsSt_type (fs : List (String × Value)) (p : String) :
    ∀ s : Schema, (parseObjFieldsSt fs s p).2.type = s.type := by
  induction fs with
  | nil =>
    intro s
    simp [parseObjFieldsSt]
  | cons hd rest ih =>
    obtain ⟨fname, fval⟩ := hd
    intro s
    simp only [parseObjFieldsSt]
    repeat' split
    all_goals simp [type_withProperties, type_withAddl, ih]

theorem parseResourceSt_type_eq (v : Value) (s s2 : Schema) (p : String)
    (hn : normalizeType s = .ok s2) :
    (parseResourceSt v (some s) p).2.map Schema.type = some s2.type := by
  cases v with
  | obj fields =>
    simp only [parseResourceSt, hn]
    split
    · simp
    · simp [parseObjFieldsSt_type]
  | arr items =>
    simp only [parseResourceSt, hn]
    split
    · simp
    · split
      · simp
      · simp [type_withItemsSchema]
  | str s3 => simp [parseResourceSt, hn]
  | num => simp [parseResourceSt, hn]
  | intv => simp [parseResourceSt, hn]
  | boolv => simp [parseResourceSt, hn]
  | other => simp [parseResourceSt, hn]

theorem parseSt_oneOfFree_aux (n : Nat) :
    (∀ v s p, sizeOf v ≤ n → s.oneOfFree = true →
      (parseResourceSt v (some s) p).2 = some s)
    ∧ (∀ fs s p, sizeOf fs ≤ n → s.oneOfFree = true →
      (parseObjFieldsSt fs s p).2 = s)
    ∧ (∀ vs is p i, sizeOf vs ≤ n → is.oneOfFree = true →
      (parseArrItemsSt vs is p i).2 = is) := by
  induction n with
  | zero =>
    refine ⟨fun v s p hsz => ?_, fun fs s p hsz => ?_, fun vs is p i hsz => ?_⟩
    · exact absurd hsz (by cases v <;> simp)
    · exact absurd hsz (by cases fs <;> simp)
    · exact absurd hsz (by cases vs <;> simp)
  | succ n ih =>
    obtain ⟨ihR, ihF, ihA⟩ := ih
    refine ⟨fun v s p hsz hfree => ?_, fun fs s p hsz hfree => ?_,
      fun vs is p i hsz hfree => ?_⟩
    · by_cases hl : s.type.length = 1
      · have hn : normalizeType s = .ok s := by simp [normalizeType, hl]
        cases v with
        | obj fields =>
          simp only [parseResourceSt, hn]
          split
          · rfl
          · simp [ihF fields s p (by simp at hsz; omega) hfree]
        | arr items =>
          simp only [parseResourceSt, hn]
          split
          · rfl
          · cases hi : itemsSchemaOf s with
            | none => simp [arrayItemSchema, hi]
            | some isch =>
              have hifree := oneOfFree_items s isch hfree hi
              simp [arrayItemSchema, hi,
                ihA items isch p 0 (by simp at hsz; omega) hifree,
                withItemsSchema_self s isch hi]
        | str s3 => simp [parseResourceSt, hn]
        | num => simp [parseResourceSt, hn]
        | intv => simp [parseResourceSt, hn]
        | boolv => simp [parseResourceSt, hn]
        | other => simp [parseResourceSt, hn]
      · have hn : normalizeType s = .error "found schema type that is not a single type" := by
          simp [normalizeType, hl, oneOfFree_oneOf_nil s hfree]
        simp [parseResourceSt, hn]
    · cases fs with
      | nil => simp [parseObjFieldsSt]
      | cons hd rest =>
        obtain ⟨fname, fval⟩ := hd
        cases hl : List.lookup fname s.properties with
        | some child =>
          have hchild := oneOfFree_prop s fname child hfree hl
          have hpost : (parseResourceSt fval (some child) (p ++ "." ++ fname)).2
              = some child :=
            ihR fval child (p ++ "." ++ fname) (by simp at hsz; omega) hchild
          simp only [parseObjFieldsSt, hl, hpost, Option.getD_some, withType_self,
            setPropEntry_lookup_self s.properties fname child hl, withProperties_self]
          cases hr1 : (parseResourceSt fval (some child) (p ++ "." ++ fname)).1 with
          | error e => simp [hr1]
          | ok fx =>
            have hrest := ihF rest s p (by simp at hsz; omega) hfree
            cases hrr : (parseObjFieldsSt rest s p).1 <;> simp [hr1, hrr, hrest]
        | none =>
          cases ha : s.addl with
          | none => simp [parseObjFieldsSt, hl, ha]
          | some pair =>
            obtain ⟨b, asch?⟩ := pair
            cases asch? with
            | some asch =>
              have hafree := oneOfFree_addl s b asch hfree ha
              have hpost : (parseResourceSt fval (some asch) (p ++ "." ++ fname)).2
                  = some asch :=
                ihR fval asch (p ++ "." ++ fname) (by simp at hsz; omega) hafree
              have hs1 : s.withAddl (some (b, some asch)) = s := by
                rw [← ha, withAddl_self]
              simp only [parseObjFieldsSt, hl, ha, hpost, Option.getD_some, hs1]
              cases hr1 : (parseResourceSt fval (some asch) (p ++ "." ++ fname)).1 with
              | error e => simp [hr1]
              | ok fx =>
                have hrest := ihF rest s p (by simp at hsz; omega) hfree
                cases hrr : (parseObjFieldsSt rest s p).1 <;> simp [hr1, hrr, hrest]
            | none =>
              cases b with
              | false => simp [parseObjFieldsSt, hl, ha]
              | true =>
                simp only [parseObjFieldsSt, hl, ha]
                cases hr1 : (parseResourceSt fval (some emptySchema) (p ++ "." ++ fname)).1 with
                | error e => simp [hr1]
                | ok fx =>
                  have hrest := ihF rest s p (by simp at hsz; omega) hfree
                  cases hrr : (parseObjFieldsSt rest s p).1 <;> simp [hr1, hrr, hrest]
    · cases vs with
      | nil => simp [parseArrItemsSt]
      | cons item rest =>
        have hpost : (parseResourceSt item (some is) (p ++ "[" ++ toString i ++ "]")).2
            = some is :=
          ihR item is (p ++ "[" ++ toString i ++ "]") (by simp at hsz; omega) hfree
        simp only [parseArrItemsSt, hpost, Option.getD_some]
        cases hr1 : (parseResourceSt item (some is) (p ++ "[" ++ toString i ++ "]")).1 with
        | error e => simp [hr1]
        | ok fx =>
          have hrest := ihA rest is p (i + 1) (by simp at hsz; omega) hfree
          cases hrr : (parseArrItemsSt rest is p (i + 1)).1 <;> simp [hr1, hrr, hrest]

/-- C7 counterexample: completed walks leave the caller's schema changed.
First input: the root declares a `oneOf` union with blank `Type`, and the
walk (which succeeds) overwrites the root node's `Type` through the
caller's pointer.  Second input: the root has the singleton `Type`
`["array"]` and no `oneOf` at all, yet the walk still mutates the
caller's tree — the recursive call on the array item runs the same write
on the nested `Items.Schema` node, which the caller's tree aliases. -/
theorem c7_counterexample :
    parseResourceSt (.str "x")
        (some (.mk [] [] none none [.mk ["string"] [] none none []])) ""
      = (.ok [], some (.mk ["string"] [] none none [.mk ["string"] [] none none []]))
    ∧ (Schema.mk ["string"] [] none none [.mk ["string"] [] none none []])
      ≠ .mk [] [] none none [.mk ["string"] [] none none []]
    ∧ parseResourceSt (.arr [.str "x"])
        (some (.mk ["array"] [] (some (some (.mk [] [] none none
            [.mk ["string"] [] none none []]))) none [])) ""
      = (.ok [], some (.mk ["array"] [] (some (some (.mk ["string"] [] none none
            [.mk ["string"] [] none none []]))) none []))
    ∧ (Schema.mk ["array"] [] (some (some (.mk ["string"] [] none none
          [.mk ["string"] [] none none []]))) none [])
      ≠ .mk ["array"] [] (some (some (.mk [] [] none none
          [.mk ["string"] [] none none []]))) none [] := by
  have hone : isOneShotExpression "x" = .ok false := by rfl
  have hex : extractExpressions "x" = .ok [] := by rfl
  refine ⟨?_, by simp, ?_, by simp⟩
  · simp [parseResourceSt, parseStringLeaf, hone, hex, normalizeType, resolveExpectedType,
      addlAllows, Schema.type, Schema.oneOf, Schema.addl, Schema.withType]
  · simp [parseResourceSt, parseArrItemsSt, parseStringLeaf, hone, hex, normalizeType,
      resolveExpectedType, addlAllows, arrayItemSchema, itemsSchemaOf, Schema.type,
      Schema.oneOf, Schema.addl, Schema.items, Schema.withType, Schema.withItemsSchema]

/-- C7 amended: the walk never mutates the document, but the input schema
is not immutable: at the walked node — the root, and, in recursive calls,
nodes the caller's tree aliases through `Items.Schema` and
`AdditionalProperties.Schema` pointers — whenever `Type` is not a
singleton and a `oneOf` union is declared, the node's `Type` is
overwritten in place with the first alternative's first type.  Nothing
else is written: a schema tree with no `oneOf` declaration anywhere is
returned to the caller unchanged, the root's own `Type` survives whenever
it is already a single type, and in the root `oneOf` case exactly the
`Type` overwrite is observed at the root. -/
theorem c7_amended_schema_mutation (s : Schema) (v : Value) (p : String) :
    (s.oneOfFree = true → (parseResourceSt v (some s) p).2 = some s)
      ∧ (s.type.length = 1 →
          (parseResourceSt v (some s) p).2.map Schema.type = some s.type)
      ∧ (∀ alt rest t ts, s.type.length ≠ 1 → s.oneOf = alt :: rest → alt.type = t :: ts →
          (parseResourceSt v (some s) p).2.map Schema.type = some [t]) := by
  refine ⟨fun hfree => ?_, fun hl => ?_, fun alt rest t ts h1 h2 h3 => ?_⟩
  · exact (parseSt_oneOfFree_aux (sizeOf v)).1 v s p le_rfl hfree
  · have hn : normalizeType s = .ok s := by simp [normalizeType, hl]
    exact parseResourceSt_type_eq v s s p hn
  · have hn : normalizeType s = .ok (s.withType [t]) := by
      simp [normalizeType, h1, h2, h3]
    simpa [type_withType] using parseResourceSt_type_eq v s (s.withType [t]) p hn

/-- C7 witness: the amended theorem's no-oneOf conjunct applied to a
concrete walk, which hands the schema tree back unchanged. -/
theorem c7_witness :
    (parseResourceSt (.obj [("a", .str "$\x7bx\x7d")])
        (some (.mk ["object"] [("a", .mk ["string"] [] none none [])] none none [])) "").2
      = some (.mk ["object"] [("a", .mk ["string"] [] none none [])] none none []) :=
  (c7_amended_schema_mutation
    (.mk ["object"] [("a", .mk ["string"] [] none none [])] none none [])
    (.obj [("a", .str "$\x7bx\x7d")]) "").1
    (by simp [Schema.oneOfFree, propsOneOfFree])
